import Mathlib

/-!
Verification of the configuration-resolution contract of a MathJax
configuration repository.  The repository's source consists of two
declarative configuration objects (a legacy `MathJax.Hub.Config` call and a
current `window.MathJax` assignment).  The data model below embeds those two
declarations as values of a JSON-like tree type, and the
`ConfigurationResolver` operations (`resolve`, `matchAt`), which the
specification describes but whose executable code is not part of the
repository, are modelled from the specification's words.
-/

/-- JSON-like configuration values.  Arrays and objects are encoded with
explicit nil/cons constructors so that every operation is plain structural
recursion.  `hook` is an opaque reference to a zero-argument callable
(lifecycle hooks are stored, never invoked, by the resolver). -/
inductive Value where
  | str (s : String)
  | num (q : Rat)
  | bool (b : Bool)
  | null
  | hook (id : Nat)
  | arrNil
  | arrCons (head tail : Value)
  | objNil
  | objCons (key : String) (val rest : Value)
deriving DecidableEq, Repr

/-- Build an object value from an association list. -/
def objOf : List (String × Value) → Value
  | [] => Value.objNil
  | (k, v) :: rest => Value.objCons k v (objOf rest)

/-- Build an array value from a list. -/
def arrOf : List Value → Value
  | [] => Value.arrNil
  | v :: rest => Value.arrCons v (arrOf rest)

/-- Is this value an object (a mapping)? -/
def Value.isObj : Value → Bool
  | .objNil => true
  | .objCons _ _ _ => true
  | _ => false

/-- Look a key up in an object value (first occurrence wins); `none` on
non-objects. -/
def lookupV (k : String) : Value → Option Value
  | .objCons k' v rest => if k = k' then some v else lookupV k rest
  | _ => none

/-- Remove every binding of a key from an object value. -/
def removeKey (k : String) : Value → Value
  | .objCons k' v rest =>
      if k = k' then removeKey k rest else Value.objCons k' v (removeKey k rest)
  | v => v

/-- Modelled from the spec: the merge policy of `ConfigurationResolver.resolve`
(the resolver itself is not in the repository's source; only the two default
configuration declarations are).  For each namespace, override keys replace
default keys by exact name match; keys absent from the overrides retain the
default; nested mappings are merged recursively; everything else — in
particular ordered sequences such as delimiter-pair lists — is replaced
wholesale by the override; override keys unknown to the base are appended
(opaque pass-through). -/
def mergeValue : Value → Value → Value
  | Value.objCons k v rest, o =>
      if o.isObj then
        Value.objCons k (Option.elim (lookupV k o) v (fun w => mergeValue v w))
          (mergeValue rest (removeKey k o))
      else o
  | Value.objNil, o => o
  | _, o => o

/-- Is this value a well-formed object: a chain of `objCons` cells ending in
`objNil`?  Configuration namespaces and override mappings are well-formed
objects. -/
def isObjChain : Value → Bool
  | .objNil => true
  | .objCons _ _ rest => isObjChain rest
  | _ => false

/-- The two schema versions found in the source: the legacy
`MathJax.Hub.Config({...})` declaration and the current `window.MathJax`
declaration. -/
inductive SchemaVersion where
  | Legacy
  | Current
deriving DecidableEq, Repr

/-- The input-processor namespace holding the delimiter lists, per version
(`tex2jax` in the legacy source, `tex` in the current source). -/
def inputNS : SchemaVersion → String
  | .Legacy => "tex2jax"
  | .Current => "tex"

/-- The output-renderer namespaces carrying scale-like options, per version. -/
def outputNSs : SchemaVersion → List String
  | .Legacy => ["HTML-CSS", "SVG"]
  | .Current => ["chtml", "svg"]

/-- Error kinds of the resolver, from the spec's error-handling design. -/
inductive ConfigError where
  | InvalidDelimiterConfig
  | InvalidScaleConfig
  | InvalidHookConfig
  | SchemaMismatch
deriving DecidableEq, Repr

/-- Field access through a namespace: `getField cfg ns key` looks up `key`
inside the namespace object `ns` of the configuration `cfg`. -/
def getField (cfg : Value) (ns key : String) : Option Value :=
  match lookupV ns cfg with
  | some nsv => lookupV key nsv
  | none => none

/-- Read one delimiter pair out of a two-element string array. -/
def pairOfValue : Value → Option (String × String)
  | .arrCons (.str o) (.arrCons (.str cl) .arrNil) => some (o, cl)
  | _ => none

/-- Read a delimiter-pair sequence out of an array of two-element string
arrays; `none` when the value is structurally malformed. -/
def pairsOfValue : Value → Option (List (String × String))
  | .arrNil => some []
  | .arrCons h t =>
      match pairOfValue h, pairsOfValue t with
      | some p, some ps => some (p :: ps)
      | _, _ => none
  | _ => none

/-- Are the (open, close) pairs of the list pairwise distinct? -/
def distinctPairs : List (String × String) → Bool
  | [] => true
  | p :: rest => !(rest.contains p) && distinctPairs rest

/-- First error wins when combining validation results. -/
def firstErr : Option ConfigError → Option ConfigError → Option ConfigError
  | some e, _ => some e
  | none, r => r

/-- Modelled from the spec: delimiter validation for one render mode's key
(`inlineMath` or `displayMath`) in the input namespace.  A mode is enabled
when its key is present; an enabled mode's sequence must parse as a list of
(open, close) pairs (else `SchemaMismatch`), be non-empty and have pairwise
distinct pairs (else `InvalidDelimiterConfig`). -/
def delimErr (cfg : Value) (ns key : String) : Option ConfigError :=
  match getField cfg ns key with
  | none => none
  | some v =>
      match pairsOfValue v with
      | none => some ConfigError.SchemaMismatch
      | some ps =>
          if ps.isEmpty then some ConfigError.InvalidDelimiterConfig
          else if distinctPairs ps then none
          else some ConfigError.InvalidDelimiterConfig

/-- Modelled from the spec: scale validation for one output namespace.  When
`scale` and `minScale` are both present as numbers, they must both be
positive and satisfy `minScale ≤ scale` (else `InvalidScaleConfig`); a
non-numeric value under either key is a `SchemaMismatch`. -/
def scaleErr (cfg : Value) (ns : String) : Option ConfigError :=
  match lookupV ns cfg with
  | none => none
  | some nsv =>
      match lookupV "scale" nsv, lookupV "minScale" nsv with
      | some (.num s), some (.num m) =>
          if 0 < m ∧ 0 < s ∧ m ≤ s then none else some ConfigError.InvalidScaleConfig
      | some (.num _), none => none
      | none, some (.num _) => none
      | none, none => none
      | _, _ => some ConfigError.SchemaMismatch

/-- Scale validation over a list of output namespaces, first error wins. -/
def scaleErrList (cfg : Value) : List String → Option ConfigError
  | [] => none
  | ns :: rest => firstErr (scaleErr cfg ns) (scaleErrList cfg rest)

/-- Modelled from the spec: lifecycle-hook validation for one key of the
`startup` namespace.  A hook that is present must be an opaque callable
reference (`Value.hook`); an absent hook is fine (it defaults to a no-op);
any other value kind is `InvalidHookConfig`. -/
def hookErr (cfg : Value) (key : String) : Option ConfigError :=
  match getField cfg "startup" key with
  | none => none
  | some (.hook _) => none
  | some _ => some ConfigError.InvalidHookConfig

/-- Hook validation per schema version: the legacy schema has no `startup`
namespace; the current schema checks the `ready` and `pageReady` hooks. -/
def hookErrs (ver : SchemaVersion) (cfg : Value) : Option ConfigError :=
  match ver with
  | .Legacy => none
  | .Current => firstErr (hookErr cfg "ready") (hookErr cfg "pageReady")

/-- Modelled from the spec: post-merge validation, checking delimiters, then
scales, then hooks, returning the first error found (or none). -/
def validate (ver : SchemaVersion) (cfg : Value) : Option ConfigError :=
  firstErr (delimErr cfg (inputNS ver) "inlineMath")
    (firstErr (delimErr cfg (inputNS ver) "displayMath")
      (firstErr (scaleErrList cfg (outputNSs ver))
        (hookErrs ver cfg)))

/-- Modelled from the spec: `ConfigurationResolver.resolve`.  Merges the
complete default `base` with the partial `overrides` (per `mergeValue`),
validates the merged configuration, and returns it unchanged on success; a
validation failure yields only the error, never a partial configuration. -/
def resolve (ver : SchemaVersion) (base overrides : Value) : Except ConfigError Value :=
  match validate ver (mergeValue base overrides) with
  | some e => Except.error e
  | none => Except.ok (mergeValue base overrides)

/-- The render modes. -/
inductive RenderMode where
  | inline
  | display
deriving DecidableEq, Repr

/-- The configuration key holding a mode's delimiter list. -/
def modeKey : RenderMode → String
  | .inline => "inlineMath"
  | .display => "displayMath"

/-- Does the open delimiter `op` occur at (character) position `pos` of
`text`? -/
def openMatchesAt (text : String) (pos : Nat) (op : String) : Bool :=
  op.toList.isPrefixOf (text.toList.drop pos)

/-- Modelled from the spec: try each delimiter pair in order for a prefix
match at `pos`; return the first pair whose open delimiter matches, together
with the position right after the open delimiter (where the close delimiter
would be searched from). -/
def delimMatch : List (String × String) → String → Nat → Option ((String × String) × Nat)
  | [], _, _ => none
  | (o, cl) :: rest, text, pos =>
      if openMatchesAt text pos o then some ((o, cl), pos + o.length)
      else delimMatch rest text pos

/-- Modelled from the spec: `ConfigurationResolver.match` over a resolved
configuration: reads the mode's delimiter sequence from the version's input
namespace and applies first-match-wins. -/
def matchAt (cfg : Value) (ver : SchemaVersion) (mode : RenderMode)
    (text : String) (pos : Nat) : Option ((String × String) × Nat) :=
  match getField cfg (inputNS ver) (modeKey mode) with
  | some v =>
      match pairsOfValue v with
      | some ps => delimMatch ps text pos
      | none => none
  | none => none

/-- Build a delimiter-list value from (open, close) string pairs. -/
def delimsV (ps : List (String × String)) : Value :=
  arrOf (ps.map fun p => arrOf [Value.str p.1, Value.str p.2])

/-- The legacy default configuration, embedded verbatim from the source's
`MathJax.Hub.Config({...})` declaration. -/
def legacyDefaults : Value :=
  objOf
    [ ("tex2jax", objOf
        [ ("inlineMath", delimsV [("$", "$"), ("\\(", "\\)")])
        , ("displayMath", delimsV [("$$", "$$"), ("\\[", "\\]")])
        , ("processEscapes", Value.bool true)
        , ("skipTags", arrOf
            [ Value.str "script", Value.str "noscript", Value.str "style"
            , Value.str "textarea", Value.str "pre", Value.str "code" ]) ])
    , ("TeX", objOf
        [ ("equationNumbers", objOf [("autoNumber", Value.str "AMS")])
        , ("Macros", objOf
            [ ("RR", Value.str "\x7b\\mathbb\x7bR\x7d\x7d")
            , ("NN", Value.str "\x7b\\mathbb\x7bN\x7d\x7d") ])
        , ("extensions", arrOf [Value.str "AMSmath.js", Value.str "AMSsymbols.js"]) ])
    , ("mml2jax", objOf [])
    , ("HTML-CSS", objOf
        [ ("availableFonts", arrOf [Value.str "STIX", Value.str "TeX"])
        , ("preferredFont", Value.str "TeX")
        , ("webFont", Value.str "TeX")
        , ("scale", Value.num 100)
        , ("imageFont", Value.null) ])
    , ("SVG", objOf [])
    , ("NativeMML", objOf [])
    , ("messageStyle", Value.str "none")
    , ("showMathMenu", Value.bool true)
    , ("showProcessingMessages", Value.bool false) ]

/-- The current default configuration, embedded verbatim from the source's
`window.MathJax = {...}` declaration (the two anonymous callbacks become
opaque hook references 0 and 1). -/
def currentDefaults : Value :=
  objOf
    [ ("tex", objOf
        [ ("inlineMath", delimsV [("$", "$"), ("\\(", "\\)")])
        , ("displayMath", delimsV [("$$", "$$"), ("\\[", "\\]")])
        , ("processEscapes", Value.bool true)
        , ("processEnvironments", Value.bool true)
        , ("packages", arrOf
            [ Value.str "base", Value.str "ams", Value.str "noerrors"
            , Value.str "noundefined", Value.str "autoload", Value.str "require" ]) ])
    , ("mml", objOf [])
    , ("asciimath", objOf [])
    , ("chtml", objOf
        [ ("scale", Value.num 1)
        , ("minScale", Value.num (mkRat 1 2))
        , ("mtextFont", Value.str "")
        , ("fontURL", Value.str "") ])
    , ("svg", objOf
        [ ("scale", Value.num 1)
        , ("minScale", Value.num (mkRat 1 2))
        , ("fontCache", Value.str "local")
        , ("fontURL", Value.str "") ])
    , ("options", objOf
        [ ("ignoreHtmlClass", Value.str "tex2jax_ignore")
        , ("processHtmlClass", Value.str "tex2jax_process")
        , ("renderActions", objOf [])
        , ("enableMenu", Value.bool true) ])
    , ("loader", objOf
        [ ("load", arrOf [Value.str "input/tex", Value.str "output/chtml"])
        , ("paths", objOf [])
        , ("require", objOf []) ])
    , ("startup", objOf
        [ ("elements", Value.null)
        , ("typeset", Value.bool true)
        , ("ready", Value.hook 0)
        , ("pageReady", Value.hook 1) ]) ]

/-- A well-formed object is an object. -/
theorem isObj_of_chain (os : Value) (h : isObjChain os = true) : os.isObj = true := by
  cases os <;> simp [isObjChain, Value.isObj] at h ⊢

/-- Removing a key preserves well-formedness of objects. -/
theorem isObjChain_removeKey (k : String) :
    ∀ os : Value, isObjChain os = true → isObjChain (removeKey k os) = true := by
  intro os
  induction os with
  | objCons k' v rest ihv ihr =>
      intro h
      rw [isObjChain] at h
      rw [removeKey]
      by_cases hk : k = k'
      · rw [if_pos hk]
        exact ihr h
      · rw [if_neg hk, isObjChain]
        exact ihr h
  | objNil => intro h; exact h
  | str s => intro h; simp [isObjChain] at h
  | num q => intro h; simp [isObjChain] at h
  | bool b => intro h; simp [isObjChain] at h
  | null => intro h; simp [isObjChain] at h
  | hook id => intro h; simp [isObjChain] at h
  | arrNil => intro h; simp [isObjChain] at h
  | arrCons hd tl ih1 ih2 => intro h; simp [isObjChain] at h

/-- Looking up a key other than the removed one is unchanged. -/
theorem lookupV_removeKey (k k' : String) (hne : k ≠ k') :
    ∀ os : Value, lookupV k (removeKey k' os) = lookupV k os := by
  intro os
  induction os with
  | objCons a v rest ihv ihr =>
      rw [removeKey]
      by_cases ha : k' = a
      · rw [if_pos ha, ihr, lookupV, if_neg (ha ▸ hne)]
      · rw [if_neg ha, lookupV, lookupV, ihr]
  | objNil => rfl
  | str s => rfl
  | num q => rfl
  | bool b => rfl
  | null => rfl
  | hook id => rfl
  | arrNil => rfl
  | arrCons hd tl ih1 ih2 => rfl

/-- Merging with a non-object override replaces the base wholesale. -/
theorem mergeValue_not_obj (b o : Value) (h : o.isObj = false) : mergeValue b o = o := by
  cases b <;> simp [mergeValue, h]

/-- Merge lemma: a key supplied by the overrides ends up in the merged object,
merged with the base's value for that key when the base has one, and taken
verbatim otherwise. -/
theorem merge_lookup_some (k : String) :
    ∀ bs os w : Value, isObjChain os = true → lookupV k os = some w →
      lookupV k (mergeValue bs os)
        = some (Option.elim (lookupV k bs) w (fun v => mergeValue v w)) := by
  intro bs
  induction bs with
  | objCons k' v rest ihv ihr =>
      intro os w hos hk
      have hobj : os.isObj = true := isObj_of_chain os hos
      rw [mergeValue, if_pos hobj]
      by_cases hkk : k = k'
      · subst hkk
        simp [lookupV, hk]
      · have hrec := ihr (removeKey k' os) w (isObjChain_removeKey k' os hos)
          ((lookupV_removeKey k k' hkk os).trans hk)
        simp [lookupV, hkk, hrec]
  | objNil => intro os w hos hk; exact hk
  | str s => intro os w hos hk; exact hk
  | num q => intro os w hos hk; exact hk
  | bool b => intro os w hos hk; exact hk
  | null => intro os w hos hk; exact hk
  | hook id => intro os w hos hk; exact hk
  | arrNil => intro os w hos hk; exact hk
  | arrCons hd tl ih1 ih2 => intro os w hos hk; exact hk

/-- Merge lemma: a key the overrides do not supply keeps the base's value. -/
theorem merge_lookup_none (k : String) :
    ∀ bs os : Value, isObjChain os = true → lookupV k os = none →
      lookupV k (mergeValue bs os) = lookupV k bs := by
  intro bs
  induction bs with
  | objCons k' v rest ihv ihr =>
      intro os hos hk
      have hobj : os.isObj = true := isObj_of_chain os hos
      rw [mergeValue, if_pos hobj]
      by_cases hkk : k = k'
      · subst hkk
        simp [lookupV, hk]
      · have hrec := ihr (removeKey k' os) (isObjChain_removeKey k' os hos)
          ((lookupV_removeKey k k' hkk os).trans hk)
        simp [lookupV, hkk, hrec]
  | objNil => intro os hos hk; exact hk
  | str s => intro os hos hk; exact hk
  | num q => intro os hos hk; exact hk
  | bool b => intro os hos hk; exact hk
  | null => intro os hos hk; exact hk
  | hook id => intro os hos hk; exact hk
  | arrNil => intro os hos hk; exact hk
  | arrCons hd tl ih1 ih2 => intro os hos hk; exact hk

/-- Merging a well-formed object with the empty override reproduces it. -/
theorem mergeValue_objNil (b : Value) (h : isObjChain b = true) :
    mergeValue b Value.objNil = b := by
  induction b with
  | objCons k v rest ihv ihr =>
      rw [isObjChain] at h
      show Value.objCons k v (mergeValue rest Value.objNil) = Value.objCons k v rest
      rw [ihr h]
  | objNil => rfl
  | str s => simp [isObjChain] at h
  | num q => simp [isObjChain] at h
  | bool b => simp [isObjChain] at h
  | null => simp [isObjChain] at h
  | hook id => simp [isObjChain] at h
  | arrNil => simp [isObjChain] at h
  | arrCons hd tl ih1 ih2 => simp [isObjChain] at h

/-- A successful resolve returns exactly the merged configuration, and the
merged configuration validates cleanly. -/
theorem resolve_ok (ver : SchemaVersion) (b o cfg : Value)
    (h : resolve ver b o = Except.ok cfg) :
    cfg = mergeValue b o ∧ validate ver (mergeValue b o) = none := by
  revert h
  rw [resolve]
  cases hv : validate ver (mergeValue b o) with
  | some e => intro h; exact absurd h (by simp)
  | none => intro h; injection h with h; exact ⟨h.symm, rfl⟩

/-- Combining validation results yields no error exactly when neither side
does. -/
theorem firstErr_none (a b : Option ConfigError) (h : firstErr a b = none) :
    a = none ∧ b = none := by
  cases a with
  | none => exact ⟨rfl, h⟩
  | some e => simp [firstErr] at h

/-- A cleanly validating configuration passes all four validator groups. -/
theorem validate_none (ver : SchemaVersion) (cfg : Value)
    (h : validate ver cfg = none) :
    delimErr cfg (inputNS ver) "inlineMath" = none
      ∧ delimErr cfg (inputNS ver) "displayMath" = none
      ∧ scaleErrList cfg (outputNSs ver) = none
      ∧ hookErrs ver cfg = none := by
  obtain ⟨h1, h'⟩ := firstErr_none _ _ h
  obtain ⟨h2, h''⟩ := firstErr_none _ _ h'
  obtain ⟨h3, h4⟩ := firstErr_none _ _ h''
  exact ⟨h1, h2, h3, h4⟩

/-- A clean scale check over a namespace list is clean on each namespace. -/
theorem scaleErrList_mem (cfg : Value) :
    ∀ (l : List String) (ns : String), scaleErrList cfg l = none → ns ∈ l →
      scaleErr cfg ns = none := by
  intro l
  induction l with
  | nil => intro ns _ hm; exact absurd hm (List.not_mem_nil ns)
  | cons a rest ih =>
      intro ns h hm
      obtain ⟨ha, hrest⟩ := firstErr_none _ _ h
      rcases List.mem_cons.mp hm with rfl | hm'
      · exact ha
      · exact ih ns hrest hm'

/-- A namespace passing the scale check with both scale keys present as
numbers satisfies the scale invariant. -/
theorem scaleErr_none_sound (cfg : Value) (ns : String) (nsv : Value) (s m : Rat)
    (h : scaleErr cfg ns = none) (h1 : lookupV ns cfg = some nsv)
    (h2 : lookupV "scale" nsv = some (Value.num s))
    (h3 : lookupV "minScale" nsv = some (Value.num m)) :
    0 < m ∧ 0 < s ∧ m ≤ s := by
  simp only [scaleErr, h1, h2, h3] at h
  split_ifs at h with hp
  exact hp

/-- A render-mode key passing the delimiter check with a parseable sequence is
non-empty with pairwise-distinct pairs. -/
theorem delimErr_none_sound (cfg : Value) (ns key : String) (v : Value)
    (ps : List (String × String))
    (h : delimErr cfg ns key = none) (h1 : getField cfg ns key = some v)
    (h2 : pairsOfValue v = some ps) :
    ps ≠ [] ∧ distinctPairs ps = true := by
  simp only [delimErr, h1, h2] at h
  split_ifs at h with he hd
  exact ⟨fun hnil => by simp [hnil] at he, hd⟩

/-- A present, parseable delimiter sequence that is empty or has duplicate
pairs makes the delimiter check fail with `InvalidDelimiterConfig`. -/
theorem delimErr_violation (cfg : Value) (ns key : String) (v : Value)
    (ps : List (String × String))
    (h1 : getField cfg ns key = some v) (h2 : pairsOfValue v = some ps)
    (hbad : ps = [] ∨ distinctPairs ps = false) :
    delimErr cfg ns key = some ConfigError.InvalidDelimiterConfig := by
  simp only [delimErr, h1, h2]
  rcases hbad with rfl | hd
  · rfl
  · by_cases he : ps.isEmpty = true
    · simp [he]
    · simp [he, hd]

/-- A hook key passing the hook check while present is an opaque hook
reference. -/
theorem hookErr_none_sound (cfg : Value) (key : String) (w : Value)
    (h : hookErr cfg key = none) (h1 : getField cfg "startup" key = some w) :
    ∃ n, w = Value.hook n := by
  cases w <;> simp [hookErr, h1] at h
  exact ⟨_, rfl⟩

/-- A present, non-callable hook value makes the hook check fail with
`InvalidHookConfig`. -/
theorem hookErr_violation (cfg : Value) (key : String) (w : Value)
    (h1 : getField cfg "startup" key = some w) (hn : ∀ n, w ≠ Value.hook n) :
    hookErr cfg key = some ConfigError.InvalidHookConfig := by
  cases w <;> simp [hookErr, h1]
  exact absurd rfl (hn _)

/-- Claim C1: for every base and overrides, resolve merges per namespace by
exact key name — override keys replace default keys, keys absent from the
overrides retain the default, nested mappings are merged recursively, and
ordered sequences (delimiter-pair lists) supplied by the overrides replace
the default sequence wholesale, so the resolved sequence for that mode equals
exactly the override sequence with the defaults discarded. -/
theorem C1_merge_policy :
    (∀ (bs os : Value) (k : String), isObjChain os = true →
        lookupV k os = none → lookupV k (mergeValue bs os) = lookupV k bs)
    ∧ (∀ (bs os w v : Value) (k : String), isObjChain os = true →
        lookupV k os = some w → lookupV k bs = some v →
        lookupV k (mergeValue bs os) = some (mergeValue v w))
    ∧ (∀ (b : Value) (ps : List (String × String)),
        mergeValue b (delimsV ps) = delimsV ps)
    ∧ (mergeValue (objOf [("a", objOf [("x", Value.num 1), ("y", Value.num 2)])])
        (objOf [("a", objOf [("y", Value.num 3)])])
        = objOf [("a", objOf [("x", Value.num 1), ("y", Value.num 3)])])
    ∧ (∃ cfg, resolve SchemaVersion.Current currentDefaults
          (objOf [("tex", objOf [("displayMath", delimsV [("@@", "@@")])])]) = Except.ok cfg
        ∧ getField cfg (inputNS SchemaVersion.Current) (modeKey RenderMode.display)
            = some (delimsV [("@@", "@@")]))
    ∧ (∀ (ver : SchemaVersion) (b o cfg : Value),
        resolve ver b o = Except.ok cfg → cfg = mergeValue b o) := by
  refine ⟨?_, ?_, ?_, rfl, ?_, ?_⟩
  · intro bs os k hos hk
    exact merge_lookup_none k bs os hos hk
  · intro bs os w v k hos hk hb
    rw [merge_lookup_some k bs os w hos hk, hb, Option.elim_some]
  · intro b ps
    apply mergeValue_not_obj
    cases ps <;> rfl
  · exact ⟨mergeValue currentDefaults
      (objOf [("tex", objOf [("displayMath", delimsV [("@@", "@@")])])]), rfl, rfl⟩
  · intro ver b o cfg h
    exact (resolve_ok ver b o cfg h).1

/-- Witness for C1: the merge policy applied at concrete objects. -/
theorem C1_merge_policy_witness :
    lookupV "a" (mergeValue (objOf [("a", Value.num 1)]) (objOf [("b", Value.num 2)]))
      = lookupV "a" (objOf [("a", Value.num 1)]) :=
  C1_merge_policy.1 (objOf [("a", Value.num 1)]) (objOf [("b", Value.num 2)]) "a" rfl rfl

/-- Claim C2: resolving a complete default base with an empty overrides
mapping returns the base unchanged, for both schema versions; merging any
well-formed object with the empty override is the identity. -/
theorem C2_empty_override_identity :
    (∀ b : Value, isObjChain b = true → mergeValue b Value.objNil = b)
    ∧ resolve SchemaVersion.Legacy legacyDefaults Value.objNil = Except.ok legacyDefaults
    ∧ resolve SchemaVersion.Current currentDefaults Value.objNil
        = Except.ok currentDefaults :=
  ⟨mergeValue_objNil, rfl, rfl⟩

/-- Witness for C2: the legacy defaults merged with the empty override. -/
theorem C2_empty_override_identity_witness :
    mergeValue legacyDefaults Value.objNil = legacyDefaults :=
  C2_empty_override_identity.1 legacyDefaults rfl

/-- Claim C3: the matcher tries the mode's delimiter pairs in declaration
order and returns the first pair whose open delimiter occurs at the cursor
position (first-match-wins); with display delimiters [($$,$$), ($,$)] on
"$$x$$" it returns the $$ pair, and with inline delimiters [($,$), (\(,\))]
on "$x$" it returns the $ pair. -/
theorem C3_match_first_wins :
    (∀ (o cl : String) (rest : List (String × String)) (text : String) (pos : Nat),
        openMatchesAt text pos o = true →
        delimMatch ((o, cl) :: rest) text pos = some ((o, cl), pos + o.length))
    ∧ (∀ (o cl : String) (rest : List (String × String)) (text : String) (pos : Nat),
        openMatchesAt text pos o = false →
        delimMatch ((o, cl) :: rest) text pos = delimMatch rest text pos)
    ∧ matchAt (objOf [("tex", objOf [("displayMath", delimsV [("$$", "$$"), ("$", "$")])])])
        SchemaVersion.Current RenderMode.display "$$x$$" 0 = some (("$$", "$$"), 2)
    ∧ matchAt (objOf [("tex", objOf [("inlineMath", delimsV [("$", "$"), ("\\(", "\\)")])])])
        SchemaVersion.Current RenderMode.inline "$x$" 0 = some (("$", "$"), 1) := by
  refine ⟨?_, ?_, rfl, rfl⟩
  · intro o cl rest text pos h
    rw [delimMatch, if_pos h]
  · intro o cl rest text pos h
    rw [delimMatch, if_neg (by simp [h])]

/-- Witness for C3: first-match-wins at "$$x$$" with the $$ pair first. -/
theorem C3_match_first_wins_witness :
    delimMatch [("$$", "$$"), ("$", "$")] "$$x$$" 0
      = some (("$$", "$$"), 0 + "$$".length) :=
  C3_match_first_wins.1 "$$" "$$" [("$", "$")] "$$x$$" 0 rfl

/-- Claim C4: a successful resolve satisfies the scale invariant — wherever
an output namespace carries both scale and minScale as numbers, both are
positive and minScale ≤ scale; resolving with scale = 0.5 and minScale = 1
fails with InvalidScaleConfig, and with scale = 1 and minScale = 0.5 it
succeeds. -/
theorem C4_scale_invariant :
    (∀ (ver : SchemaVersion) (b o cfg nsv : Value) (ns : String) (s m : Rat),
        resolve ver b o = Except.ok cfg → ns ∈ outputNSs ver →
        lookupV ns cfg = some nsv →
        lookupV "scale" nsv = some (Value.num s) →
        lookupV "minScale" nsv = some (Value.num m) →
        0 < m ∧ 0 < s ∧ m ≤ s)
    ∧ resolve SchemaVersion.Current currentDefaults
        (objOf [("chtml", objOf [("scale", Value.num (mkRat 1 2)), ("minScale", Value.num 1)])])
        = Except.error ConfigError.InvalidScaleConfig
    ∧ resolve SchemaVersion.Current currentDefaults
        (objOf [("chtml", objOf [("scale", Value.num 1), ("minScale", Value.num (mkRat 1 2))])])
        = Except.ok (mergeValue currentDefaults
            (objOf [("chtml", objOf
              [("scale", Value.num 1), ("minScale", Value.num (mkRat 1 2))])])) := by
  refine ⟨?_, rfl, rfl⟩
  intro ver b o cfg nsv ns s m hok hns h1 h2 h3
  obtain ⟨rfl, hv⟩ := resolve_ok ver b o cfg hok
  obtain ⟨-, -, hs, -⟩ := validate_none ver _ hv
  exact scaleErr_none_sound _ ns nsv s m (scaleErrList_mem _ _ ns hs hns) h1 h2 h3

/-- Witness for C4: the invariant read off the resolved current defaults'
chtml namespace. -/
theorem C4_scale_invariant_witness :
    0 < (mkRat 1 2 : Rat) ∧ (0 : Rat) < 1 ∧ (mkRat 1 2 : Rat) ≤ 1 :=
  C4_scale_invariant.1 SchemaVersion.Current currentDefaults Value.objNil currentDefaults
    (objOf [("scale", Value.num 1), ("minScale", Value.num (mkRat 1 2)),
      ("mtextFont", Value.str ""), ("fontURL", Value.str "")])
    "chtml" 1 (mkRat 1 2) rfl (List.Mem.head _) rfl rfl rfl

/-- Claim C5: in a successfully resolved configuration every enabled render
mode's delimiter sequence is non-empty with pairwise-distinct (open, close)
pairs; a present, parseable sequence violating this makes the delimiter check
fail with InvalidDelimiterConfig; concretely, two identical pairs registered
for display mode make resolve fail with InvalidDelimiterConfig. -/
theorem C5_delimiter_invariant :
    (∀ (ver : SchemaVersion) (b o cfg v : Value) (mode : RenderMode)
        (ps : List (String × String)),
        resolve ver b o = Except.ok cfg →
        getField cfg (inputNS ver) (modeKey mode) = some v →
        pairsOfValue v = some ps →
        ps ≠ [] ∧ distinctPairs ps = true)
    ∧ (∀ (cfg v : Value) (ns key : String) (ps : List (String × String)),
        getField cfg ns key = some v → pairsOfValue v = some ps →
        (ps = [] ∨ distinctPairs ps = false) →
        delimErr cfg ns key = some ConfigError.InvalidDelimiterConfig)
    ∧ resolve SchemaVersion.Current currentDefaults
        (objOf [("tex", objOf [("displayMath", delimsV [("$$", "$$"), ("$$", "$$")])])])
        = Except.error ConfigError.InvalidDelimiterConfig := by
  refine ⟨?_, ?_, rfl⟩
  · intro ver b o cfg v mode ps hok hg hp
    obtain ⟨rfl, hv⟩ := resolve_ok ver b o cfg hok
    obtain ⟨hi, hd, -, -⟩ := validate_none ver _ hv
    cases mode
    · exact delimErr_none_sound _ _ _ v ps hi hg hp
    · exact delimErr_none_sound _ _ _ v ps hd hg hp
  · intro cfg v ns key ps hg hp hbad
    exact delimErr_violation cfg ns key v ps hg hp hbad

/-- Witness for C5: the invariant read off the resolved current defaults'
display delimiters. -/
theorem C5_delimiter_invariant_witness :
    ([("$$", "$$"), ("\\[", "\\]")] : List (String × String)) ≠ []
      ∧ distinctPairs [("$$", "$$"), ("\\[", "\\]")] = true :=
  C5_delimiter_invariant.1 SchemaVersion.Current currentDefaults Value.objNil
    currentDefaults (delimsV [("$$", "$$"), ("\\[", "\\]")]) RenderMode.display
    [("$$", "$$"), ("\\[", "\\]")] rfl rfl rfl

/-- Claim C6: a top-level key supplied in the overrides that the base does
not model is accepted without error and appears unchanged in the resolved
configuration (opaque pass-through, never silently dropped). -/
theorem C6_unknown_passthrough :
    (∀ (bs os w : Value) (k : String), isObjChain os = true →
        lookupV k os = some w → lookupV k bs = none →
        lookupV k (mergeValue bs os) = some w)
    ∧ (∃ cfg, resolve SchemaVersion.Current currentDefaults
          (objOf [("myExtension", Value.str "on")]) = Except.ok cfg
        ∧ lookupV "myExtension" cfg = some (Value.str "on")) := by
  constructor
  · intro bs os w k hos hk hb
    rw [merge_lookup_some k bs os w hos hk, hb, Option.elim_none]
  · exact ⟨mergeValue currentDefaults (objOf [("myExtension", Value.str "on")]), rfl, rfl⟩

/-- Witness for C6: an unknown key passed through a concrete merge. -/
theorem C6_unknown_passthrough_witness :
    lookupV "custom" (mergeValue currentDefaults (objOf [("custom", Value.bool true)]))
      = some (Value.bool true) :=
  C6_unknown_passthrough.1 currentDefaults (objOf [("custom", Value.bool true)])
    (Value.bool true) "custom" rfl rfl rfl

/-- Claim C7: resolve is all-or-nothing: for every input it either succeeds
with exactly the fully merged configuration, or fails with one of the error
kinds and yields no configuration at all — the merge is never partially
applied and every error arises synchronously inside resolve. -/
theorem C7_atomic_resolution :
    ∀ (ver : SchemaVersion) (b o : Value),
      resolve ver b o = Except.ok (mergeValue b o)
        ∨ ∃ e : ConfigError, resolve ver b o = Except.error e := by
  intro ver b o
  rw [resolve]
  cases validate ver (mergeValue b o) with
  | none => exact Or.inl rfl
  | some e => exact Or.inr ⟨e, rfl⟩

/-- Claim C8: resolve is a deterministic pure function — equal inputs yield
identical configurations — and lifecycle hooks travel through the merge as
opaque references, never invoked or altered. -/
theorem C8_resolve_deterministic :
    (∀ (ver ver2 : SchemaVersion) (b b2 o o2 : Value),
        ver = ver2 → b = b2 → o = o2 → resolve ver b o = resolve ver2 b2 o2)
    ∧ (∀ (bs os : Value) (k : String) (n : Nat), isObjChain os = true →
        lookupV k os = some (Value.hook n) →
        lookupV k (mergeValue bs os) = some (Value.hook n)) := by
  constructor
  · intro ver ver2 b b2 o o2 h1 h2 h3
    rw [h1, h2, h3]
  · intro bs os k n hos hk
    rw [merge_lookup_some k bs os (Value.hook n) hos hk]
    cases hb : lookupV k bs with
    | none => rfl
    | some v => rw [Option.elim_some, mergeValue_not_obj v (Value.hook n) rfl]

/-- Witness for C8: determinism applied at the current defaults. -/
theorem C8_resolve_deterministic_witness :
    resolve SchemaVersion.Current currentDefaults Value.objNil
      = resolve SchemaVersion.Current currentDefaults Value.objNil :=
  C8_resolve_deterministic.1 SchemaVersion.Current SchemaVersion.Current
    currentDefaults currentDefaults Value.objNil Value.objNil rfl rfl rfl

/-- Claim C9: in a successfully resolved current-schema configuration every
present lifecycle hook (ready, pageReady) is an opaque zero-argument callable
reference, an absent hook being allowed (it defaults to a no-op); a present
non-callable hook value makes the hook check — and resolve — fail with
InvalidHookConfig. -/
theorem C9_hook_invariant :
    (∀ (b o cfg w : Value) (key : String),
        resolve SchemaVersion.Current b o = Except.ok cfg →
        (key = "ready" ∨ key = "pageReady") →
        getField cfg "startup" key = some w →
        ∃ n, w = Value.hook n)
    ∧ (∀ (cfg w : Value) (key : String),
        getField cfg "startup" key = some w → (∀ n, w ≠ Value.hook n) →
        hookErr cfg key = some ConfigError.InvalidHookConfig)
    ∧ resolve SchemaVersion.Current currentDefaults
        (objOf [("startup", objOf [("ready", Value.str "oops")])])
        = Except.error ConfigError.InvalidHookConfig := by
  refine ⟨?_, ?_, rfl⟩
  · intro b o cfg w key hok hkey hg
    obtain ⟨rfl, hv⟩ := resolve_ok _ b o cfg hok
    obtain ⟨-, -, -, hh⟩ := validate_none _ _ hv
    obtain ⟨hr, hp⟩ := firstErr_none _ _ hh
    rcases hkey with rfl | rfl
    · exact hookErr_none_sound _ _ w hr hg
    · exact hookErr_none_sound _ _ w hp hg
  · intro cfg w key hg hn
    exact hookErr_violation cfg key w hg hn

/-- Witness for C9: the ready hook of the resolved current defaults is an
opaque hook reference. -/
theorem C9_hook_invariant_witness :
    ∃ n, Value.hook 0 = Value.hook n :=
  C9_hook_invariant.1 currentDefaults Value.objNil currentDefaults (Value.hook 0)
    "ready" rfl (Or.inl rfl) rfl

/-- Claim C10: in both schema versions the declared default inline and
display delimiter lists — inline [($,$), (\(,\))] and display
[($$,$$), (\[,\])] — are non-empty with pairwise-distinct pairs, so the
defaults of either version pass the delimiter check and resolve with empty
overrides without InvalidDelimiterConfig. -/
theorem C10_default_delimiters_valid :
    (getField legacyDefaults "tex2jax" "inlineMath"
        = some (delimsV [("$", "$"), ("\\(", "\\)")])
      ∧ getField legacyDefaults "tex2jax" "displayMath"
          = some (delimsV [("$$", "$$"), ("\\[", "\\]")])
      ∧ getField currentDefaults "tex" "inlineMath"
          = some (delimsV [("$", "$"), ("\\(", "\\)")])
      ∧ getField currentDefaults "tex" "displayMath"
          = some (delimsV [("$$", "$$"), ("\\[", "\\]")]))
    ∧ (pairsOfValue (delimsV [("$", "$"), ("\\(", "\\)")])
        = some [("$", "$"), ("\\(", "\\)")]
      ∧ pairsOfValue (delimsV [("$$", "$$"), ("\\[", "\\]")])
          = some [("$$", "$$"), ("\\[", "\\]")])
    ∧ (distinctPairs [("$", "$"), ("\\(", "\\)")] = true
      ∧ distinctPairs [("$$", "$$"), ("\\[", "\\]")] = true
      ∧ ([("$", "$"), ("\\(", "\\)")] : List (String × String)) ≠ []
      ∧ ([("$$", "$$"), ("\\[", "\\]")] : List (String × String)) ≠ [])
    ∧ (delimErr legacyDefaults "tex2jax" "inlineMath" = none
      ∧ delimErr legacyDefaults "tex2jax" "displayMath" = none
      ∧ delimErr currentDefaults "tex" "inlineMath" = none
      ∧ delimErr currentDefaults "tex" "displayMath" = none)
    ∧ resolve SchemaVersion.Legacy legacyDefaults Value.objNil = Except.ok legacyDefaults
    ∧ resolve SchemaVersion.Current currentDefaults Value.objNil
        = Except.ok currentDefaults := by
  refine ⟨⟨rfl, rfl, rfl, rfl⟩, ⟨rfl, rfl⟩, ⟨rfl, rfl, ?_, ?_⟩,
    ⟨rfl, rfl, rfl, rfl⟩, rfl, rfl⟩
  · exact List.cons_ne_nil _ _
  · exact List.cons_ne_nil _ _
